import Mathlib

/-!
Verification of the request-admission subsystem of the secure-todo
application: the input sanitizer `sanitizeInput`, the zod validation
schemas `signUpSchema` / `todoSchema`, and the sliding-window
`RateLimiter` (all in src/unnamed/part_001), together with the
error-surfacing sign-up handler (src/app/auth/signup/page.tsx).

Strings are modelled as Lean `String` / `List Char`.  JavaScript's
`String.prototype.length` counts UTF-16 code units while `List Char`
counts code points; the two agree on all inputs appearing below (and on
every string without characters beyond the basic multilingual plane).
-/

namespace SecureTodo

/-! ## Sanitizer (src/unnamed/part_001, `sanitizeInput`, lines 39-45)

    The source applies four `String.replace` / `trim` steps in order:
    `.replace(/[<>]/g, '')`, `.replace(/javascript:/gi, '')`,
    `.replace(/on\w+=/gi, '')`, `.trim()`.  A global `replace` with empty
    replacement scans left to right, deleting each match and resuming the
    scan immediately after the deleted match. -/

/-- Case-insensitive character comparison, as the `i` flag of a JS regex
compares ASCII letters (`Char.toLower` lowers exactly the ASCII range). -/
def eqCI (a b : Char) : Bool := a.toLower == b.toLower

/-- `startsWithCI pat s` holds when `s` begins with the literal `pat`,
compared case-insensitively. -/
def startsWithCI : List Char → List Char → Bool
  | [], _ => true
  | _ :: _, [] => false
  | p :: ps, c :: cs => eqCI p c && startsWithCI ps cs

/-- Step 1 of the sanitizer: `.replace(/[<>]/g, '')` deletes every `<`
and `>` character. -/
def removeAngleList (s : List Char) : List Char :=
  s.filter fun c => !(c == '<' || c == '>')

/-- The literal pattern of step 2, `/javascript:/gi`. -/
def jsSchemePat : List Char := "javascript:".data

/-- Global case-insensitive deletion of the literal `pat`
(`.replace(/pat/gi, '')`): scan left to right; on a match skip past it,
otherwise keep the character and continue. -/
def removeCI (pat : List Char) : List Char → List Char
  | [] => []
  | c :: cs =>
    if startsWithCI pat (c :: cs) then removeCI pat (cs.drop (pat.length - 1))
    else c :: removeCI pat cs
termination_by s => s.length
decreasing_by
  · simp only [List.length_drop, List.length_cons]; omega
  · simp only [List.length_cons]; omega

/-- JS `\w`: ASCII letters, digits and underscore. -/
def isWordChar (c : Char) : Bool := c.isAlpha || c.isDigit || c == '_'

/-- Attempt to match `/on\w+=/i` at the head of the list; on success
return the remainder of the list after the match.  `\w+` is greedy and
`=` is not a word character, so the match succeeds exactly when the
maximal word-character run after `on` is nonempty and is followed by
`=`. -/
def matchHandlerAt : List Char → Option (List Char)
  | o :: n :: rest =>
    if eqCI o 'o' && eqCI n 'n' && !(rest.takeWhile isWordChar).isEmpty then
      match rest.dropWhile isWordChar with
      | '=' :: r => some r
      | _ => none
    else none
  | _ => none

/-- Step 3 of the sanitizer: `.replace(/on\w+=/gi, '')`. -/
def removeHandlers : List Char → List Char
  | [] => []
  | c :: cs =>
    match h : matchHandlerAt (c :: cs) with
    | some r => removeHandlers r
    | none => c :: removeHandlers cs
termination_by s => s.length
decreasing_by
  · cases cs with
    | nil => simp [matchHandlerAt] at h
    | cons n rest =>
      simp only [matchHandlerAt] at h
      split at h
      · split at h
        · next heq =>
          have hlen : (rest.dropWhile isWordChar).length ≤ rest.length :=
            (List.dropWhile_sublist isWordChar).length_le
          rw [heq] at hlen
          simp only [Option.some.injEq] at h
          subst h
          simp only [List.length_cons] at hlen ⊢
          omega
        · exact absurd h (by simp)
      · exact absurd h (by simp)
  · simp only [List.length_cons]; omega

/-- The WhiteSpace / LineTerminator set of `String.prototype.trim`. -/
def isJsSpace (c : Char) : Bool :=
  c == ' ' || c == '\t' || c == '\n' || c == '\r' ||
  c == '\x0b' || c == '\x0c' || c.val == 0xa0 || c.val == 0x1680 ||
  (0x2000 ≤ c.val && c.val ≤ 0x200a) || c.val == 0x2028 || c.val == 0x2029 ||
  c.val == 0x202f || c.val == 0x205f || c.val == 0x3000 || c.val == 0xfeff

/-- Step 4 of the sanitizer: `.trim()` removes leading and trailing
whitespace. -/
def trimList (s : List Char) : List Char :=
  List.rdropWhile isJsSpace (List.dropWhile isJsSpace s)

/-- `sanitizeInput` on `List Char`: the four replacement steps of
src/unnamed/part_001 lines 40-44, composed in source order. -/
def sanitizeList (s : List Char) : List Char :=
  trimList (removeHandlers (removeCI jsSchemePat (removeAngleList s)))

/-- `sanitizeInput` (src/unnamed/part_001, lines 39-45). -/
def sanitizeInput (s : String) : String := ⟨sanitizeList s.data⟩

/-- JS `String.prototype.trim` on `String`. -/
def strTrim (s : String) : String := ⟨trimList s.data⟩

/-- JS `String.prototype.toLowerCase`, restricted to its ASCII action
(every string this development evaluates it on is ASCII). -/
def jsToLower (s : String) : String := ⟨s.data.map Char.toLower⟩

/-! ## Rate limiter (src/unnamed/part_001, `RateLimiter`, lines 47-63)

    `attempts` is a `Map<string, number[]>` with `get(key) || []`
    defaulting to the empty list; it is modelled as a total function from
    keys to timestamp lists.  `Date.now()` is passed in explicitly as the
    `now` argument; timestamps are integers (milliseconds). -/

structure RateLimiter where
  attempts : String → List Int

def RateLimiter.empty : RateLimiter := ⟨fun _ => []⟩

/-- `isAllowed(key, maxAttempts, windowMs)` with the current clock value
`now` made explicit: read the timestamp list for `key`, keep the
timestamps with `now - time < windowMs`, deny if at least `maxAttempts`
remain (leaving the state untouched), otherwise append `now`, store the
list and allow. -/
def RateLimiter.isAllowed (rl : RateLimiter) (key : String)
    (maxAttempts : Nat) (windowMs now : Int) : Bool × RateLimiter :=
  if maxAttempts ≤ ((rl.attempts key).filter fun time => decide (now - time < windowMs)).length
  then (false, rl)
  else
    (true,
      ⟨fun k =>
        if k = key
        then ((rl.attempts key).filter fun time => decide (now - time < windowMs)) ++ [now]
        else rl.attempts k⟩)

/-! ## Validation schemas (src/unnamed/part_001, lines 3-37)

    zod semantics, as implemented by the zod 3 library the schemas are
    built with: each field runs its check chain in order on the raw
    value, collecting an issue for every failing check; `.transform`
    runs only after all checks of its field succeed; the object collects
    the issues of all fields in shape-key order; `.refine` runs only
    when every field parsed successfully, and on failure contributes an
    issue carrying its configured `path` and `message`.  `.parse` throws
    a `ZodError` holding the collected issue list on any failure. -/

structure ZodIssue where
  path : List String
  message : String
deriving DecidableEq

/-- Split a character list at every occurrence of `sep` (the separator
is dropped; `n` separators yield `n + 1` parts). -/
def splitOnChar (sep : Char) : List Char → List (List Char)
  | [] => [[]]
  | c :: cs =>
    if c == sep then [] :: splitOnChar sep cs
    else
      match splitOnChar sep cs with
      | [] => [[c]]
      | h :: t => (c :: h) :: t

/-- No two consecutive `.` characters (the `(?!.*\.\.)` lookahead of the
zod email regex). -/
def noDoubleDot : List Char → Bool
  | [] => true
  | [_] => true
  | a :: b :: rest => !(a == '.' && b == '.') && noDoubleDot (b :: rest)

/-- Characters admitted anywhere in the local part of the zod email
regex: `[a-zA-Z0-9_'+\-.]`. -/
def zodEmailLocalChar (c : Char) : Bool :=
  c.isAlpha || c.isDigit || c == '_' || c == '\'' || c == '+' || c == '-' || c == '.'

/-- Characters admitted as the final local-part character:
`[a-zA-Z0-9_+-]`. -/
def zodEmailLocalLastChar (c : Char) : Bool :=
  c.isAlpha || c.isDigit || c == '_' || c == '+' || c == '-'

/-- Local part of the email: nonempty, not starting with `.` (the `(?!\.)`
lookahead), every character admissible, last character in the restricted
class. -/
def zodEmailLocalOk : List Char → Bool
  | [] => false
  | c :: cs =>
    !(c == '.') && (c :: cs).all zodEmailLocalChar &&
      zodEmailLocalLastChar ((c :: cs).getLast (by simp))

/-- One domain label: `[a-zA-Z0-9][a-zA-Z0-9-]*`. -/
def zodEmailLabelOk : List Char → Bool
  | [] => false
  | c :: cs => (c.isAlpha || c.isDigit) && cs.all fun d => d.isAlpha || d.isDigit || d == '-'

/-- Top-level domain: at least two ASCII letters. -/
def zodEmailTldOk (l : List Char) : Bool :=
  decide (2 ≤ l.length) && l.all Char.isAlpha

/-- Domain: one or more labels followed by a TLD, dot-separated. -/
def zodEmailDomainOk (d : List Char) : Bool :=
  match (splitOnChar '.' d).reverse with
  | [] => false
  | tld :: labelsRev => !labelsRev.isEmpty && zodEmailTldOk tld && labelsRev.all zodEmailLabelOk

/-- zod's `.email()` format check — the email regex of the zod 3 library
(`/^(?!\.)(?!.*\.\.)([a-zA-Z0-9_'+\-\.]*)[a-zA-Z0-9_+-]@([a-zA-Z0-9][a-zA-Z0-9\-]*\.)+[a-zA-Z]{2,}$/`),
stated structurally: exactly one `@`, a well-formed local part, a
dot-separated domain of labels plus TLD, and no `..` anywhere. -/
def zodEmailCheck (s : String) : Bool :=
  match splitOnChar '@' s.data with
  | [localPart, domainPart] =>
    noDoubleDot s.data && zodEmailLocalOk localPart && zodEmailDomainOk domainPart
  | _ => false

/-- Issues of the `email` field chain of `signUpSchema` (lines 4-8):
`.email(...)`, `.min(5, ...)`, `.max(100, ...)`, in chain order. -/
def emailIssues (s : String) : List ZodIssue :=
  (if zodEmailCheck s then [] else [⟨["email"], "Email tidak valid"⟩]) ++
  (if s.length < 5 then [⟨["email"], "Email minimal 5 karakter"⟩] else []) ++
  (if 100 < s.length then [⟨["email"], "Email maksimal 100 karakter"⟩] else [])

/-- Issues of the `password` field chain of `signUpSchema` (lines 9-14):
`.min(8)`, `.max(100)`, `.regex(/[A-Z]/)`, `.regex(/[a-z]/)`,
`.regex(/[0-9]/)`, in chain order. -/
def passwordIssues (s : String) : List ZodIssue :=
  (if s.length < 8 then [⟨["password"], "Password minimal 8 karakter"⟩] else []) ++
  (if 100 < s.length then [⟨["password"], "Password maksimal 100 karakter"⟩] else []) ++
  (if s.data.any Char.isUpper then [] else [⟨["password"], "Password harus mengandung huruf besar"⟩]) ++
  (if s.data.any Char.isLower then [] else [⟨["password"], "Password harus mengandung huruf kecil"⟩]) ++
  (if s.data.any (fun c => c.isDigit) then [] else [⟨["password"], "Password harus mengandung angka"⟩])

/-- Raw input of `signUpSchema` — the `formData` record of the sign-up
page, three string fields. -/
structure SignUpRaw where
  email : String
  password : String
  confirmPassword : String
deriving DecidableEq

/-- `SignUpInput = z.infer<typeof signUpSchema>`: the validated,
transformed output. -/
structure SignUpInput where
  email : String
  password : String
  confirmPassword : String
deriving DecidableEq

/-- Field-level issues of `signUpSchema` in shape-key order (`email`,
`password`, `confirmPassword`; the `confirmPassword` chain has no
checks). -/
def signUpIssues (raw : SignUpRaw) : List ZodIssue :=
  emailIssues raw.email ++ passwordIssues raw.password

/-- `signUpSchema.parse` (lines 3-19): collect field issues on the raw
values; if none, apply the email transform `val.toLowerCase().trim()`
and run the `.refine` comparing `password === confirmPassword`, which on
failure yields the issue with path `['confirmPassword']` and message
`'Password tidak cocok'`. -/
def signUpParse (raw : SignUpRaw) : Except (List ZodIssue) SignUpInput :=
  if signUpIssues raw = [] then
    let out : SignUpInput :=
      { email := strTrim (jsToLower raw.email)
        password := raw.password
        confirmPassword := raw.confirmPassword }
    if out.password = out.confirmPassword then Except.ok out
    else Except.error [⟨["confirmPassword"], "Password tidak cocok"⟩]
  else Except.error (signUpIssues raw)

/-- The sign-up page handler's error surface
(src/app/auth/signup/page.tsx, lines 47-52): on a `ZodError` it shows
`error.errors[0].message`, the message of the first collected issue;
on success no validation error is shown. -/
def surfacedSignUpError (raw : SignUpRaw) : Option String :=
  match signUpParse raw with
  | Except.ok _ => none
  | Except.error issues => issues.head?.map ZodIssue.message

/-- Raw input of `todoSchema`: `title` a string, `description` an
optional string. -/
structure TodoRaw where
  title : String
  description : Option String
deriving DecidableEq

/-- `TodoInput = z.infer<typeof todoSchema>`. -/
structure TodoValidated where
  title : String
  description : Option String
deriving DecidableEq

/-- Issues of `todoSchema` (lines 28-37): `title.min(1)`, `title.max(200)`
on the raw title; `description.max(1000)` only when a description is
present (`.optional()` short-circuits an absent value past the checks). -/
def todoIssues (raw : TodoRaw) : List ZodIssue :=
  (if raw.title.length < 1 then [⟨["title"], "Judul wajib diisi"⟩] else []) ++
  (if 200 < raw.title.length then [⟨["title"], "Judul maksimal 200 karakter"⟩] else []) ++
  (match raw.description with
   | none => []
   | some d => if 1000 < d.length then [⟨["description"], "Deskripsi maksimal 1000 karakter"⟩] else [])

/-- `todoSchema.parse`: on success the title transform `val.trim()` and
the description transform `val?.trim() || null` are applied — an absent
description stays absent, and a present description whose trimmed form
is the (falsy) empty string becomes `null` as well. -/
def todoParse (raw : TodoRaw) : Except (List ZodIssue) TodoValidated :=
  if todoIssues raw = [] then
    Except.ok
      { title := strTrim raw.title
        description :=
          match raw.description with
          | none => none
          | some d => if strTrim d = "" then none else some (strTrim d) }
  else Except.error (todoIssues raw)

/-- Reference definition following the spec's words for the fail-fast
error-reporting claim: "on first failing rule, validation stops and
reports that single failure".  It walks the sign-up rules in schema
order — email format, email min, email max, password min, password max,
password uppercase, password lowercase, password digit, password
confirmation — and returns the message of the first rule that fails,
`none` when all pass.  To be compared with `surfacedSignUpError`, which
is the composition the code actually performs (zod collects every issue
and the page handler surfaces `errors[0].message`). -/
def specFailFastFirstFailure (raw : SignUpRaw) : Option String :=
  if zodEmailCheck raw.email then
    if raw.email.length < 5 then some "Email minimal 5 karakter"
    else if 100 < raw.email.length then some "Email maksimal 100 karakter"
    else if raw.password.length < 8 then some "Password minimal 8 karakter"
    else if 100 < raw.password.length then some "Password maksimal 100 karakter"
    else if raw.password.data.any Char.isUpper then
      if raw.password.data.any Char.isLower then
        if raw.password.data.any (fun c => c.isDigit) then
          if raw.password = raw.confirmPassword then none
          else some "Password tidak cocok"
        else some "Password harus mengandung angka"
      else some "Password harus mengandung huruf kecil"
    else some "Password harus mengandung huruf besar"
  else some "Email tidak valid"

/-! ## Helper lemmas about the sanitizer passes -/

theorem mem_of_mem_removeCI {pat : List Char} {c : Char} :
    ∀ {s : List Char}, c ∈ removeCI pat s → c ∈ s := by
  intro s
  induction s using removeCI.induct pat with
  | case1 => intro h; simp [removeCI] at h
  | case2 d cs hm ih =>
    intro h
    simp only [removeCI] at h
    rw [if_pos hm] at h
    exact List.mem_cons_of_mem _ (List.mem_of_mem_drop (ih h))
  | case3 d cs hm ih =>
    intro h
    simp only [removeCI] at h
    rw [if_neg hm] at h
    rcases List.mem_cons.mp h with h1 | h2
    · exact h1 ▸ List.mem_cons_self _ _
    · exact List.mem_cons_of_mem _ (ih h2)

theorem sublist_of_matchHandlerAt {s r : List Char} (h : matchHandlerAt s = some r) :
    r.Sublist s := by
  match s with
  | [] => simp [matchHandlerAt] at h
  | [o] => simp [matchHandlerAt] at h
  | o :: n :: rest =>
    simp only [matchHandlerAt] at h
    split at h
    · split at h
      · rename_i r0 heq
        simp only [Option.some.injEq] at h
        subst h
        have h1 : List.Sublist ('=' :: r0) rest := by
          rw [← heq]; exact List.dropWhile_sublist isWordChar
        have h2 : List.Sublist r0 rest :=
          (List.Sublist.cons '=' (List.Sublist.refl r0)).trans h1
        exact List.Sublist.cons o (List.Sublist.cons n h2)
      · exact absurd h (by simp)
    · exact absurd h (by simp)

theorem mem_of_mem_removeHandlers {c : Char} :
    ∀ {s : List Char}, c ∈ removeHandlers s → c ∈ s := by
  intro s
  induction s using removeHandlers.induct with
  | case1 => intro h; simp [removeHandlers] at h
  | case2 d cs r hm ih =>
    intro h
    simp only [removeHandlers] at h
    split at h
    · rename_i r' heq
      rw [hm] at heq
      injection heq with heq'
      subst heq'
      exact (sublist_of_matchHandlerAt hm).subset (ih h)
    · rename_i heq
      rw [hm] at heq
      simp at heq
  | case3 d cs hm ih =>
    intro h
    simp only [removeHandlers] at h
    split at h
    · rename_i r' heq
      rw [hm] at heq
      simp at heq
    · rcases List.mem_cons.mp h with h1 | h2
      · exact h1 ▸ List.mem_cons_self _ _
      · exact List.mem_cons_of_mem _ (ih h2)

theorem mem_of_mem_trimList {c : Char} {s : List Char} (h : c ∈ trimList s) : c ∈ s := by
  unfold trimList at h
  have h1 : c ∈ List.dropWhile isJsSpace s := by
    have hpre := List.rdropWhile_prefix isJsSpace (List.dropWhile isJsSpace s)
    exact hpre.sublist.subset h
  exact (List.dropWhile_sublist isJsSpace).subset h1

theorem sanitizeList_no_angle {c : Char} {s : List Char} (h : c ∈ sanitizeList s) :
    c ≠ '<' ∧ c ≠ '>' := by
  unfold sanitizeList at h
  have h1 : c ∈ removeAngleList s :=
    mem_of_mem_removeCI (mem_of_mem_removeHandlers (mem_of_mem_trimList h))
  unfold removeAngleList at h1
  have h2 := List.of_mem_filter h1
  simpa using h2

theorem trimList_idem (s : List Char) : trimList (trimList s) = trimList s := by
  unfold trimList
  have htt : List.dropWhile isJsSpace (List.dropWhile isJsSpace s) =
      List.dropWhile isJsSpace s := List.dropWhile_idempotent _ _
  have hu : List.dropWhile isJsSpace
      (List.rdropWhile isJsSpace (List.dropWhile isJsSpace s)) =
      List.rdropWhile isJsSpace (List.dropWhile isJsSpace s) := by
    rcases hcase : List.rdropWhile isJsSpace (List.dropWhile isJsSpace s) with _ | ⟨a, u⟩
    · simp
    · have hpre := List.rdropWhile_prefix isJsSpace (List.dropWhile isJsSpace s)
      rw [hcase] at hpre
      obtain ⟨rest, hrest⟩ := hpre
      have ht' : List.dropWhile isJsSpace s = a :: (u ++ rest) := by
        rw [← hrest]; simp
      have hna : ¬ (isJsSpace a = true) := by
        intro hpa
        rw [ht', List.dropWhile_cons, if_pos hpa] at htt
        have hlen : (List.dropWhile isJsSpace (u ++ rest)).length ≤ (u ++ rest).length :=
          (List.dropWhile_sublist isJsSpace).length_le
        rw [htt] at hlen
        simp only [List.length_cons] at hlen
        omega
      rw [List.dropWhile_cons, if_neg hna]
  rw [hu, List.rdropWhile_idempotent]

/-! ## Claims about the sanitizer -/

/-- C6 (confirmed): for every string `x`, `sanitize(x)` contains no `<`
character and no `>` character. -/
theorem sanitize_no_angle (x : String) :
    '<' ∉ (sanitizeInput x).data ∧ '>' ∉ (sanitizeInput x).data := by
  constructor
  · intro h
    have h' : '<' ∈ sanitizeList x.data := h
    exact (sanitizeList_no_angle h').1 rfl
  · intro h
    have h' : '>' ∈ sanitizeList x.data := h
    exact (sanitizeList_no_angle h').2 rfl

/-- C7 (confirmed): `sanitize` is exactly the in-order composition
angle-bracket removal, then case-insensitive `javascript:` removal, then
case-insensitive `on\w+=` removal, then trim — and the two documented
examples evaluate exactly as the claim states. -/
theorem sanitize_pipeline_examples :
    (∀ x : String, sanitizeInput x =
        ⟨trimList (removeHandlers (removeCI jsSchemePat (removeAngleList x.data)))⟩) ∧
    sanitizeInput "<script>alert(1)</script>" = "scriptalert(1)/script" ∧
    sanitizeInput "  hello <b>world</b>  " = "hello bworld/b" := by
  refine ⟨fun x => rfl, ?_, ?_⟩
  · simp [sanitizeInput, sanitizeList, removeAngleList, removeCI, removeHandlers,
      matchHandlerAt, trimList, jsSchemePat, startsWithCI, eqCI, isWordChar, isJsSpace,
      List.rdropWhile, List.dropWhile, List.filter]
  · simp [sanitizeInput, sanitizeList, removeAngleList, removeCI, removeHandlers,
      matchHandlerAt, trimList, jsSchemePat, startsWithCI, eqCI, isWordChar, isJsSpace,
      List.rdropWhile, List.dropWhile, List.filter]

/-- C1 counterexample: sanitization is not idempotent.  Deleting the
`javascript:` occurrence of `"javajavascript:script:"` splices the
surrounding fragments into a fresh `javascript:`, which only a second
pass removes, so `sanitize(sanitize(x)) ≠ sanitize(x)` at this input. -/
theorem sanitize_not_idempotent_cx :
    sanitizeInput "javajavascript:script:" = "javascript:" ∧
    sanitizeInput (sanitizeInput "javajavascript:script:") = "" ∧
    sanitizeInput (sanitizeInput "javajavascript:script:") ≠
      sanitizeInput "javajavascript:script:" := by
  have h1 : sanitizeInput "javajavascript:script:" = "javascript:" := by
    simp [sanitizeInput, sanitizeList, removeAngleList, removeCI, removeHandlers,
      matchHandlerAt, trimList, jsSchemePat, startsWithCI, eqCI, isWordChar, isJsSpace,
      List.rdropWhile, List.dropWhile, List.filter]
  have h2 : sanitizeInput "javascript:" = "" := by
    simp [sanitizeInput, sanitizeList, removeAngleList, removeCI, removeHandlers,
      matchHandlerAt, trimList, jsSchemePat, startsWithCI, eqCI, isWordChar, isJsSpace,
      List.rdropWhile, List.dropWhile, List.filter]
  refine ⟨h1, ?_, ?_⟩
  · rw [h1, h2]
  · rw [h1, h2]
    decide

/-- C1 (amended): the sanitizer is idempotent on every input whose
sanitized output is left unchanged by the `javascript:`-removal and the
`on\w+=`-removal passes (deletion can otherwise splice fragments into
new matches, as the counterexample shows); under that proviso the
remaining passes are stable — the output has no `<`/`>` left, and trim
is idempotent. -/
theorem sanitize_idempotent_of_stable (x : String)
    (h1 : removeCI jsSchemePat (sanitizeInput x).data = (sanitizeInput x).data)
    (h2 : removeHandlers (sanitizeInput x).data = (sanitizeInput x).data) :
    sanitizeInput (sanitizeInput x) = sanitizeInput x := by
  have hangle : removeAngleList (sanitizeInput x).data = (sanitizeInput x).data := by
    unfold removeAngleList
    rw [List.filter_eq_self]
    intro a ha
    have ha' : a ∈ sanitizeList x.data := ha
    have hne := sanitizeList_no_angle ha'
    simp [hne.1, hne.2]
  show (⟨sanitizeList (sanitizeInput x).data⟩ : String) = sanitizeInput x
  unfold sanitizeList
  rw [hangle, h1, h2]
  show (⟨trimList (trimList (removeHandlers (removeCI jsSchemePat (removeAngleList x.data))))⟩ :
    String) = sanitizeInput x
  rw [trimList_idem]
  rfl

theorem sanitize_idempotent_of_stable_witness :
    removeCI jsSchemePat (sanitizeInput "  hello  ").data = (sanitizeInput "  hello  ").data ∧
    removeHandlers (sanitizeInput "  hello  ").data = (sanitizeInput "  hello  ").data ∧
    sanitizeInput (sanitizeInput "  hello  ") = sanitizeInput "  hello  " := by
  have h1 : removeCI jsSchemePat (sanitizeInput "  hello  ").data =
      (sanitizeInput "  hello  ").data := by
    simp [sanitizeInput, sanitizeList, removeAngleList, removeCI, removeHandlers,
      matchHandlerAt, trimList, jsSchemePat, startsWithCI, eqCI, isWordChar, isJsSpace,
      List.rdropWhile, List.dropWhile, List.filter]
  have h2 : removeHandlers (sanitizeInput "  hello  ").data =
      (sanitizeInput "  hello  ").data := by
    simp [sanitizeInput, sanitizeList, removeAngleList, removeCI, removeHandlers,
      matchHandlerAt, trimList, jsSchemePat, startsWithCI, eqCI, isWordChar, isJsSpace,
      List.rdropWhile, List.dropWhile, List.filter]
  exact ⟨h1, h2, sanitize_idempotent_of_stable "  hello  " h1 h2⟩

/-! ## Helper lemmas about the rate limiter -/

theorem isAllowed_fst_true_iff (rl : RateLimiter) (key : String)
    (maxAttempts : Nat) (windowMs now : Int) :
    (rl.isAllowed key maxAttempts windowMs now).1 = true ↔
      ((rl.attempts key).filter fun time => decide (now - time < windowMs)).length
        < maxAttempts := by
  unfold RateLimiter.isAllowed
  split
  · next hc => simp only [Bool.false_eq_true, false_iff]; omega
  · next hc => simp only [true_iff]; omega

theorem isAllowed_attempts_of_allowed (rl : RateLimiter) (key : String)
    (maxAttempts : Nat) (windowMs now : Int)
    (h : ((rl.attempts key).filter fun time => decide (now - time < windowMs)).length
      < maxAttempts) :
    (rl.isAllowed key maxAttempts windowMs now).2.attempts key =
      ((rl.attempts key).filter fun time => decide (now - time < windowMs)) ++ [now] := by
  unfold RateLimiter.isAllowed
  rw [if_neg (by omega)]
  simp

/-! ## Claims about the rate limiter -/

/-- C2 counterexample: a call of `isAllowed` that returns denied does
NOT write the pruned timestamp sequence back.  With timestamps
`[0, 150000, 160000, 170000]` stored for key `"k"` and a call at
`now = 200000` with `maxAttempts = 3`, `windowMs = 60000`, the pruned
sequence is `[150000, 160000, 170000]` (the count, 3, reaches the
limit, so the call is denied), yet the stored sequence afterwards is
still the unpruned `[0, 150000, 160000, 170000]`. -/
theorem ratelimiter_denied_no_writeback :
    (((RateLimiter.mk fun k => if k = "k" then [0, 150000, 160000, 170000] else []).isAllowed
        "k" 3 60000 200000).1 = false) ∧
    (List.filter (fun time => decide ((200000 : Int) - time < 60000))
        [0, 150000, 160000, 170000] = [150000, 160000, 170000]) ∧
    (((RateLimiter.mk fun k => if k = "k" then [0, 150000, 160000, 170000] else []).isAllowed
        "k" 3 60000 200000).2.attempts "k" = [0, 150000, 160000, 170000]) ∧
    (((RateLimiter.mk fun k => if k = "k" then [0, 150000, 160000, 170000] else []).isAllowed
        "k" 3 60000 200000).2.attempts "k" ≠ [150000, 160000, 170000]) := by
  have h3 : ((RateLimiter.mk fun k => if k = "k" then [0, 150000, 160000, 170000]
      else []).isAllowed "k" 3 60000 200000).2.attempts "k"
      = [0, 150000, 160000, 170000] := rfl
  refine ⟨rfl, by decide, h3, ?_⟩
  rw [h3]
  decide

/-- C2 (amended): a denied `isAllowed` call leaves the limiter state
completely unchanged — the code returns before `attempts.set`, so the
pruned sequence is NOT written back on denial; pruning is persisted only
by allowed calls. -/
theorem ratelimiter_denied_state_unchanged (rl : RateLimiter) (key : String)
    (maxAttempts : Nat) (windowMs now : Int)
    (h : (rl.isAllowed key maxAttempts windowMs now).1 = false) :
    (rl.isAllowed key maxAttempts windowMs now).2 = rl := by
  by_cases hc : maxAttempts ≤
      ((rl.attempts key).filter fun time => decide (now - time < windowMs)).length
  · unfold RateLimiter.isAllowed
    rw [if_pos hc]
  · unfold RateLimiter.isAllowed at h
    rw [if_neg hc] at h
    simp at h

theorem ratelimiter_denied_state_unchanged_witness :
    ((RateLimiter.mk fun k => if k = "w" then [10, 20, 30] else []).isAllowed
        "w" 3 60000 40).2 = RateLimiter.mk fun k => if k = "w" then [10, 20, 30] else [] :=
  ratelimiter_denied_state_unchanged _ "w" 3 60000 40 rfl

/-- C5 (confirmed): starting from a state with no attempts for `"k"`,
three in-window calls with `maxAttempts = 3`, `windowMs = 60000` return
`true, true, true`; a fourth call still inside the window of the first
attempt returns `false`; and a fifth call whose clock has advanced past
60000 ms from the first recorded attempt returns `true` again. -/
theorem ratelimiter_three_allow_then_deny_then_slide (rl0 : RateLimiter)
    (h0 : rl0.attempts "k" = []) (t1 t2 t3 t4 t5 : Int)
    (h12 : t1 ≤ t2) (h23 : t2 ≤ t3) (h34 : t3 ≤ t4) (h45 : t4 ≤ t5)
    (hin : t4 - t1 < 60000) (hout : 60000 < t5 - t1) :
    (rl0.isAllowed "k" 3 60000 t1).1 = true ∧
    ((rl0.isAllowed "k" 3 60000 t1).2.isAllowed "k" 3 60000 t2).1 = true ∧
    (((rl0.isAllowed "k" 3 60000 t1).2.isAllowed "k" 3 60000 t2).2.isAllowed
        "k" 3 60000 t3).1 = true ∧
    ((((rl0.isAllowed "k" 3 60000 t1).2.isAllowed "k" 3 60000 t2).2.isAllowed
        "k" 3 60000 t3).2.isAllowed "k" 3 60000 t4).1 = false ∧
    (((((rl0.isAllowed "k" 3 60000 t1).2.isAllowed "k" 3 60000 t2).2.isAllowed
        "k" 3 60000 t3).2.isAllowed "k" 3 60000 t4).2.isAllowed
        "k" 3 60000 t5).1 = true := by
  have hf1 : List.filter (fun time => decide (t1 - time < 60000)) (rl0.attempts "k") = [] := by
    rw [h0]; rfl
  have b1 : (rl0.isAllowed "k" 3 60000 t1).1 = true := by
    rw [isAllowed_fst_true_iff, hf1]; simp
  have a1 : (rl0.isAllowed "k" 3 60000 t1).2.attempts "k" = [t1] := by
    rw [isAllowed_attempts_of_allowed _ _ _ _ _ (by rw [hf1]; simp), hf1]
    rfl
  have hf2 : List.filter (fun time => decide (t2 - time < 60000)) [t1] = [t1] := by
    rw [List.filter_cons, if_pos (by simp only [decide_eq_true_eq]; omega)]
    rfl
  have b2 : ((rl0.isAllowed "k" 3 60000 t1).2.isAllowed "k" 3 60000 t2).1 = true := by
    rw [isAllowed_fst_true_iff, a1, hf2]; simp
  have a2 : ((rl0.isAllowed "k" 3 60000 t1).2.isAllowed "k" 3 60000 t2).2.attempts "k"
      = [t1, t2] := by
    rw [isAllowed_attempts_of_allowed _ _ _ _ _ (by rw [a1, hf2]; simp), a1, hf2]
    rfl
  have hf3 : List.filter (fun time => decide (t3 - time < 60000)) [t1, t2] = [t1, t2] := by
    rw [List.filter_cons, if_pos (by simp only [decide_eq_true_eq]; omega),
      List.filter_cons, if_pos (by simp only [decide_eq_true_eq]; omega)]
    rfl
  have b3 : (((rl0.isAllowed "k" 3 60000 t1).2.isAllowed "k" 3 60000 t2).2.isAllowed
      "k" 3 60000 t3).1 = true := by
    rw [isAllowed_fst_true_iff, a2, hf3]; simp
  have a3 : (((rl0.isAllowed "k" 3 60000 t1).2.isAllowed "k" 3 60000 t2).2.isAllowed
      "k" 3 60000 t3).2.attempts "k" = [t1, t2, t3] := by
    rw [isAllowed_attempts_of_allowed _ _ _ _ _ (by rw [a2, hf3]; simp), a2, hf3]
    rfl
  have hf4 : List.filter (fun time => decide (t4 - time < 60000)) [t1, t2, t3]
      = [t1, t2, t3] := by
    rw [List.filter_cons, if_pos (by simp only [decide_eq_true_eq]; omega),
      List.filter_cons, if_pos (by simp only [decide_eq_true_eq]; omega),
      List.filter_cons, if_pos (by simp only [decide_eq_true_eq]; omega)]
    rfl
  have b4 : ((((rl0.isAllowed "k" 3 60000 t1).2.isAllowed "k" 3 60000 t2).2.isAllowed
      "k" 3 60000 t3).2.isAllowed "k" 3 60000 t4).1 = false := by
    have hiff := isAllowed_fst_true_iff
      (((rl0.isAllowed "k" 3 60000 t1).2.isAllowed "k" 3 60000 t2).2.isAllowed
        "k" 3 60000 t3).2 "k" 3 60000 t4
    rw [a3, hf4] at hiff
    cases hb : ((((rl0.isAllowed "k" 3 60000 t1).2.isAllowed "k" 3 60000 t2).2.isAllowed
        "k" 3 60000 t3).2.isAllowed "k" 3 60000 t4).1
    · rfl
    · have hlt := hiff.mp hb
      simp only [List.length_cons, List.length_nil] at hlt
      omega
  have a4 : ((((rl0.isAllowed "k" 3 60000 t1).2.isAllowed "k" 3 60000 t2).2.isAllowed
      "k" 3 60000 t3).2.isAllowed "k" 3 60000 t4).2.attempts "k" = [t1, t2, t3] := by
    have hst := ratelimiter_denied_state_unchanged
      (((rl0.isAllowed "k" 3 60000 t1).2.isAllowed "k" 3 60000 t2).2.isAllowed
        "k" 3 60000 t3).2 "k" 3 60000 t4 b4
    rw [hst, a3]
  have hf5 : List.filter (fun time => decide (t5 - time < 60000)) [t1, t2, t3]
      = List.filter (fun time => decide (t5 - time < 60000)) [t2, t3] := by
    rw [List.filter_cons, if_neg (by simp only [decide_eq_true_eq]; omega)]
  have b5 : (((((rl0.isAllowed "k" 3 60000 t1).2.isAllowed "k" 3 60000 t2).2.isAllowed
      "k" 3 60000 t3).2.isAllowed "k" 3 60000 t4).2.isAllowed "k" 3 60000 t5).1 = true := by
    rw [isAllowed_fst_true_iff, a4, hf5]
    have hle := List.length_filter_le (fun time => decide (t5 - time < 60000)) [t2, t3]
    simp only [List.length_cons, List.length_nil] at hle
    omega
  exact ⟨b1, b2, b3, b4, b5⟩

theorem ratelimiter_three_allow_then_deny_then_slide_witness :
    RateLimiter.empty.attempts "k" = [] ∧
    (RateLimiter.empty.isAllowed "k" 3 60000 0).1 = true ∧
    ((RateLimiter.empty.isAllowed "k" 3 60000 0).2.isAllowed "k" 3 60000 1000).1 = true ∧
    (((RateLimiter.empty.isAllowed "k" 3 60000 0).2.isAllowed "k" 3 60000 1000).2.isAllowed
        "k" 3 60000 2000).1 = true ∧
    ((((RateLimiter.empty.isAllowed "k" 3 60000 0).2.isAllowed "k" 3 60000 1000).2.isAllowed
        "k" 3 60000 2000).2.isAllowed "k" 3 60000 3000).1 = false ∧
    (((((RateLimiter.empty.isAllowed "k" 3 60000 0).2.isAllowed "k" 3 60000 1000).2.isAllowed
        "k" 3 60000 2000).2.isAllowed "k" 3 60000 3000).2.isAllowed
        "k" 3 60000 70000).1 = true := by
  refine ⟨rfl, ?_⟩
  have h := ratelimiter_three_allow_then_deny_then_slide RateLimiter.empty rfl
    0 1000 2000 3000 70000 (by decide) (by decide) (by decide) (by decide)
    (by decide) (by decide)
  exact h

/-! ## Helper lemmas about the validation schemas -/

theorem emailIssues_eq_nil_iff (s : String) :
    emailIssues s = [] ↔ (zodEmailCheck s = true ∧ 5 ≤ s.length ∧ s.length ≤ 100) := by
  unfold emailIssues
  split_ifs with h1 h2 h3 <;> simp_all

theorem passwordIssues_eq_nil_iff (s : String) :
    passwordIssues s = [] ↔
      (8 ≤ s.length ∧ s.length ≤ 100 ∧ s.data.any Char.isUpper = true ∧
        s.data.any Char.isLower = true ∧ s.data.any (fun c => c.isDigit) = true) := by
  unfold passwordIssues
  split_ifs <;> simp_all

/-! ## Claims about the validation schemas -/

/-- C3 counterexample: normalization is NOT applied before the
constraint checks.  The raw email `" A@bb.co "` trims and lowercases to
`"a@bb.co"`, which satisfies the email grammar and the 5–100 length
bound, yet credential-creation validation rejects the raw input with the
email-format failure, because zod runs `.email()/.min()/.max()` on the
raw value and only applies `.transform` afterwards. -/
theorem signup_whitespace_email_rejected_cx :
    zodEmailCheck (strTrim (jsToLower " A@bb.co ")) = true ∧
    5 ≤ (strTrim (jsToLower " A@bb.co ")).length ∧
    (strTrim (jsToLower " A@bb.co ")).length ≤ 100 ∧
    signUpParse ⟨" A@bb.co ", "Password1", "Password1"⟩ =
      Except.error [⟨["email"], "Email tidak valid"⟩] :=
  ⟨by decide, by decide, by decide, rfl⟩

/-- C3 (amended): the length and format constraints are checked on the
raw field value, and normalization (trim, and lowercasing for the email)
is applied only afterwards, to accepted values: whenever
credential-creation validation succeeds, the raw email itself already
satisfied the email grammar and the 5–100 length bound, and the returned
email is the trimmed lowercase of the raw value while both passwords are
returned unchanged. -/
theorem signup_checks_raw_then_normalizes (raw : SignUpRaw) (out : SignUpInput)
    (h : signUpParse raw = Except.ok out) :
    zodEmailCheck raw.email = true ∧
    5 ≤ raw.email.length ∧ raw.email.length ≤ 100 ∧
    out.email = strTrim (jsToLower raw.email) ∧
    out.password = raw.password ∧
    out.confirmPassword = raw.confirmPassword := by
  unfold signUpParse at h
  by_cases hiss : signUpIssues raw = []
  · rw [if_pos hiss] at h
    have hemail : emailIssues raw.email = [] :=
      (List.append_eq_nil.mp hiss).1
    have hprops := (emailIssues_eq_nil_iff raw.email).mp hemail
    by_cases hpw : raw.password = raw.confirmPassword
    · rw [if_pos hpw] at h
      injection h with h'
      subst h'
      exact ⟨hprops.1, hprops.2.1, hprops.2.2, rfl, rfl, rfl⟩
    · rw [if_neg hpw] at h
      exact absurd h (by simp)
  · rw [if_neg hiss] at h
    exact absurd h (by simp)

theorem signup_checks_raw_then_normalizes_witness :
    signUpParse ⟨"A@bb.co", "Password1", "Password1"⟩ =
      Except.ok ⟨"a@bb.co", "Password1", "Password1"⟩ ∧
    zodEmailCheck "A@bb.co" = true ∧
    5 ≤ ("A@bb.co" : String).length ∧ ("A@bb.co" : String).length ≤ 100 ∧
    ("a@bb.co" : String) = strTrim (jsToLower "A@bb.co") := by
  have h := signup_checks_raw_then_normalizes ⟨"A@bb.co", "Password1", "Password1"⟩
    ⟨"a@bb.co", "Password1", "Password1"⟩ rfl
  exact ⟨rfl, h.1, h.2.1, h.2.2.1, h.2.2.2.1⟩

/-- C4 (confirmed): for every raw credential-creation input violating
more than one validation rule — counting every field check and the
cross-field `password == confirmPassword` rule — the user-visible error
is exactly the single message of the first failing rule in schema order,
the fail-fast reference reading of the spec.  (zod itself collects every
issue; the page handler surfaces only `errors[0].message`, which
coincides with stopping at the first failing rule.) -/
theorem signup_surfaces_first_failure_only (raw : SignUpRaw)
    (h : 2 ≤ (signUpIssues raw).length +
      (if raw.password = raw.confirmPassword then 0 else 1)) :
    surfacedSignUpError raw = specFailFastFirstFailure raw := by
  have hne : signUpIssues raw ≠ [] := by
    intro h0
    rw [h0] at h
    simp only [List.length_nil, Nat.zero_add] at h
    split at h <;> omega
  unfold surfacedSignUpError signUpParse
  rw [if_neg hne]
  unfold specFailFastFirstFailure signUpIssues emailIssues passwordIssues
  by_cases h1 : zodEmailCheck raw.email = true
  · by_cases h2 : raw.email.length < 5
    · simp [h1, h2]
    · by_cases h3 : 100 < raw.email.length
      · simp [h1, h2, h3]
      · by_cases h4 : raw.password.length < 8
        · simp [h1, h2, h3, h4]
        · by_cases h5 : 100 < raw.password.length
          · simp [h1, h2, h3, h4, h5]
          · by_cases h6 : raw.password.data.any Char.isUpper = true
            · by_cases h7 : raw.password.data.any Char.isLower = true
              · by_cases h8 : raw.password.data.any (fun c => c.isDigit) = true
                · exfalso
                  apply hne
                  unfold signUpIssues emailIssues passwordIssues
                  simp [h1, h2, h3, h4, h5, h6, h7, h8]
                · simp [h1, h2, h3, h4, h5, h6, h7, h8]
              · simp [h1, h2, h3, h4, h5, h6, h7]
            · simp [h1, h2, h3, h4, h5, h6]
  · simp [h1]

theorem signup_surfaces_first_failure_only_witness :
    (2 ≤ (signUpIssues ⟨"aaaaa", "Password1", "Password2"⟩).length +
      (if ("Password1" : String) = "Password2" then 0 else 1)) ∧
    (signUpIssues ⟨"aaaaa", "Password1", "Password2"⟩).length = 1 ∧
    surfacedSignUpError ⟨"aaaaa", "Password1", "Password2"⟩ =
      specFailFastFirstFailure ⟨"aaaaa", "Password1", "Password2"⟩ ∧
    surfacedSignUpError ⟨"aaaaa", "Password1", "Password2"⟩ = some "Email tidak valid" :=
  ⟨by decide, by decide,
    signup_surfaces_first_failure_only ⟨"aaaaa", "Password1", "Password2"⟩ (by decide), rfl⟩

/-- C8 (confirmed): when every individual field is valid but the raw
`password` differs from the raw `confirmPassword` — the comparison is
plain string equality, exact and case-sensitive, with neither value
normalized — validation fails with the mismatch issue attributed to the
field `confirmPassword`. -/
theorem signup_password_mismatch (raw : SignUpRaw)
    (hfields : signUpIssues raw = [])
    (hne : raw.password ≠ raw.confirmPassword) :
    signUpParse raw = Except.error [⟨["confirmPassword"], "Password tidak cocok"⟩] := by
  unfold signUpParse
  rw [if_pos hfields, if_neg hne]

theorem signup_password_mismatch_witness :
    signUpIssues ⟨"a@bb.co", "Password1", "password1"⟩ = [] ∧
    ("Password1" : String) ≠ "password1" ∧
    signUpParse ⟨"a@bb.co", "Password1", "password1"⟩ =
      Except.error [⟨["confirmPassword"], "Password tidak cocok"⟩] :=
  ⟨by decide, by decide,
    signup_password_mismatch ⟨"a@bb.co", "Password1", "password1"⟩ (by decide) (by decide)⟩

/-- C9 (confirmed): content-item validation accepts every title of
exactly 200 characters and rejects every title of 201 characters with
the max-length violation attributed to the field `title`. -/
theorem todo_title_length_boundary (t1 t2 : String)
    (h200 : t1.length = 200) (h201 : t2.length = 201) :
    todoParse ⟨t1, none⟩ = Except.ok ⟨strTrim t1, none⟩ ∧
    todoParse ⟨t2, none⟩ = Except.error [⟨["title"], "Judul maksimal 200 karakter"⟩] := by
  constructor
  · have hiss : todoIssues ⟨t1, none⟩ = [] := by
      simp [todoIssues, h200]
    simp [todoParse, hiss]
  · have hiss : todoIssues ⟨t2, none⟩ = [⟨["title"], "Judul maksimal 200 karakter"⟩] := by
      simp [todoIssues, h201]
    simp [todoParse, hiss]

theorem todo_title_length_boundary_witness :
    (String.mk (List.replicate 200 'a')).length = 200 ∧
    (String.mk (List.replicate 201 'a')).length = 201 ∧
    todoParse ⟨String.mk (List.replicate 200 'a'), none⟩ =
      Except.ok ⟨strTrim (String.mk (List.replicate 200 'a')), none⟩ ∧
    todoParse ⟨String.mk (List.replicate 201 'a'), none⟩ =
      Except.error [⟨["title"], "Judul maksimal 200 karakter"⟩] := by
  have len200 : (String.mk (List.replicate 200 'a')).length = 200 := by
    show (List.replicate 200 'a').length = 200
    rw [List.length_replicate]
  have len201 : (String.mk (List.replicate 201 'a')).length = 201 := by
    show (List.replicate 201 'a').length = 201
    rw [List.length_replicate]
  have h := todo_title_length_boundary (String.mk (List.replicate 200 'a'))
    (String.mk (List.replicate 201 'a')) len200 len201
  exact ⟨len200, len201, h.1, h.2⟩

/-- C10 (confirmed): the title minimum length of 1 is checked on the raw
value before the trim transform, so the single-space title `" "` passes
content-item validation and the resulting validated input carries the
empty string as its title. -/
theorem todo_whitespace_title_accepted :
    todoParse ⟨" ", none⟩ = Except.ok ⟨"", none⟩ := rfl

end SecureTodo
